import Mathlib

/-!
Verification of the dual-backend reading repository and prediction glue of the
crop-monitoring service.  The definitions below are a shallow embedding of
`app/database/sqlite_db.py`, `app/database/mongodb_db.py` and
`app/api/predictions.py`: Python dicts become structures whose entries carry
explicit absent / None / value states, the two stores become explicit state
records, numeric sensor values (Python floats) are modelled as rationals, and
clock reads (`datetime.utcnow()`) are modelled by a strictly increasing
counter carried in the state.
-/

set_option maxRecDepth 4000

/-- Sensor values (`moi`, `temp`, `humidity`): Python floats, modelled as rationals. -/
abbrev Val : Type := Rat

/-- One entry of a Python dict payload: the key can be absent, present with
value `None`, or present with a proper value. -/
inductive PField (α : Type) where
  | absent : PField α
  | null : PField α
  | val : α → PField α
deriving DecidableEq

/-- `d.get(k, existing)` where the existing value is itself optional:
an absent key falls back to the existing value, a `None` value is taken as is. -/
def PField.getD {α : Type} : PField α → Option α → Option α
  | .absent, dflt => dflt
  | .null, _ => none
  | .val a, _ => some a

/-- `d.get(k)`: `None` both when the key is absent and when it holds `None`. -/
def PField.toOption {α : Type} : PField α → Option α
  | .absent => none
  | .null => none
  | .val a => some a

/-- `if k in d and d[k]:` for a string-valued key — present and truthy
(not `None` and not the empty string). -/
def PField.truthyStr : PField String → Option String
  | .val s => if s = "" then none else some s
  | _ => none

/-- `if k in d and d[k] is not None:` — the MongoDB `$set` loop condition. -/
def PField.isVal {α : Type} : PField α → Bool
  | .val _ => true
  | _ => false

/-- Turn the value of an always-present dict key into a `Field`
(present with `None` when the stored optional value is absent). -/
def PField.ofOpt {α : Type} : Option α → PField α
  | some a => .val a
  | none => .null

/-- `$set` merge for one scalar key: a present non-`None` value overwrites,
anything else keeps the old stored value. -/
def mongoSetField {α : Type} (f : PField α) (old : Option α) : Option α :=
  match f with
  | .val a => some a
  | _ => old

/-- A reference table / collection (crops, growth stages): rows of
(identifier, name) plus the next identifier the store will assign. -/
structure RefTable where
  rows : List (Nat × String)
  nextId : Nat
deriving DecidableEq

/-- `SELECT id FROM t WHERE name = ?` / `find_one({"name": name})`. -/
def RefTable.find (t : RefTable) (name : String) : Option Nat :=
  (t.rows.find? (fun r => r.2 == name)).map (fun r => r.1)

/-- `SELECT name FROM t WHERE id = ?` / `find_one({"_id": i})`. -/
def RefTable.findName (t : RefTable) (i : Nat) : Option String :=
  (t.rows.find? (fun r => r.1 == i)).map (fun r => r.2)

/-- The lookup-table resolver: look the name up, inserting a fresh row when
absent; return the identifier and the resulting table. -/
def RefTable.resolveOrCreate (t : RefTable) (name : String) : Nat × RefTable :=
  match t.find name with
  | some i => (i, t)
  | none => (t.nextId, ⟨t.rows ++ [(t.nextId, name)], t.nextId + 1⟩)

/-- Number of rows carrying a given name. -/
def RefTable.countName (t : RefTable) (name : String) : Nat :=
  (t.rows.filter (fun r => r.2 == name)).length

/-- Well-formedness of a reference table: identifiers are distinct and below
the next identifier to be assigned. -/
def RefTable.WF (t : RefTable) : Prop :=
  (t.rows.map (fun r => r.1)).Nodup ∧ ∀ r ∈ t.rows, r.1 < t.nextId

theorem RefTable.find_eq_none_iff (t : RefTable) (name : String) :
    t.find name = none ↔ ∀ r ∈ t.rows, r.2 ≠ name := by
  unfold RefTable.find
  rw [Option.map_eq_none', List.find?_eq_none]
  constructor
  · intro h r hr
    have := h r hr
    simpa using this
  · intro h r hr
    simpa using h r hr

theorem RefTable.resolveOrCreate_of_found (t : RefTable) (name : String) (i : Nat)
    (h : t.find name = some i) : t.resolveOrCreate name = (i, t) := by
  unfold RefTable.resolveOrCreate
  rw [h]

theorem RefTable.resolveOrCreate_of_new (t : RefTable) (name : String)
    (h : t.find name = none) :
    t.resolveOrCreate name = (t.nextId, ⟨t.rows ++ [(t.nextId, name)], t.nextId + 1⟩) := by
  unfold RefTable.resolveOrCreate
  rw [h]

theorem RefTable.find_after_new (t : RefTable) (name : String)
    (h : t.find name = none) :
    (RefTable.mk (t.rows ++ [(t.nextId, name)]) (t.nextId + 1)).find name = some t.nextId := by
  have hall : ∀ r ∈ t.rows, r.2 ≠ name := (t.find_eq_none_iff name).mp h
  unfold RefTable.find
  rw [List.find?_append]
  have h1 : t.rows.find? (fun r => r.2 == name) = none := by
    rw [List.find?_eq_none]
    intro r hr
    simpa using hall r hr
  rw [h1]
  simp

/-- After resolution the name maps to the returned identifier. -/
theorem RefTable.find_resolveOrCreate (t : RefTable) (name : String) :
    (t.resolveOrCreate name).2.find name = some (t.resolveOrCreate name).1 := by
  cases h : t.find name with
  | some i => rw [t.resolveOrCreate_of_found name i h]; exact h
  | none => rw [t.resolveOrCreate_of_new name h]; exact t.find_after_new name h

theorem RefTable.countName_eq_zero (t : RefTable) (name : String)
    (h : t.find name = none) : t.countName name = 0 := by
  have hall : ∀ r ∈ t.rows, r.2 ≠ name := (t.find_eq_none_iff name).mp h
  unfold RefTable.countName
  rw [List.length_eq_zero]
  rw [List.filter_eq_nil_iff]
  intro r hr
  simpa using hall r hr

theorem RefTable.countName_after_new (t : RefTable) (name : String)
    (h : t.find name = none) :
    (RefTable.mk (t.rows ++ [(t.nextId, name)]) (t.nextId + 1)).countName name = 1 := by
  have hall : ∀ r ∈ t.rows, r.2 ≠ name := (t.find_eq_none_iff name).mp h
  unfold RefTable.countName
  rw [List.filter_append]
  have h1 : t.rows.filter (fun r => r.2 == name) = [] := by
    rw [List.filter_eq_nil_iff]
    intro r hr
    simpa using hall r hr
  rw [h1]
  simp

theorem RefTable.find_mem (t : RefTable) (name : String) (i : Nat)
    (h : t.find name = some i) : (i, name) ∈ t.rows := by
  unfold RefTable.find at h
  rw [Option.map_eq_some'] at h
  obtain ⟨r, hr, hri⟩ := h
  have hmem := List.mem_of_find?_eq_some hr
  have hpred := List.find?_some hr
  have h2 : r.2 = name := by simpa using hpred
  have : r = (i, name) := by
    cases r
    simp only at h2 hri
    simp [h2, ← hri]
  rw [← this]
  exact hmem

theorem RefTable.findName_of_mem (t : RefTable) (i : Nat) (nm : String)
    (hnd : (t.rows.map (fun r => r.1)).Nodup) (hmem : (i, nm) ∈ t.rows) :
    t.findName i = some nm := by
  unfold RefTable.findName
  have hsome : (t.rows.find? (fun r => r.1 == i)).isSome := by
    rw [List.find?_isSome]
    exact ⟨(i, nm), hmem, by simp⟩
  obtain ⟨r, hr⟩ := Option.isSome_iff_exists.mp hsome
  have hr1 : r.1 = i := by simpa using List.find?_some hr
  have hrmem := List.mem_of_find?_eq_some hr
  have hinj := List.inj_on_of_nodup_map hnd
  have : r = (i, nm) := hinj hrmem hmem (by simpa using hr1)
  rw [hr, this]
  rfl

/-- With a well-formed table the identifier returned by the resolver maps back
to the resolved name. -/
theorem RefTable.findName_resolveOrCreate (t : RefTable) (name : String)
    (hWF : t.WF) :
    (t.resolveOrCreate name).2.findName (t.resolveOrCreate name).1 = some name := by
  obtain ⟨hnd, hlt⟩ := hWF
  cases h : t.find name with
  | some i =>
      rw [t.resolveOrCreate_of_found name i h]
      exact t.findName_of_mem i name hnd (t.find_mem name i h)
  | none =>
      rw [t.resolveOrCreate_of_new name h]
      unfold RefTable.findName
      rw [List.find?_append]
      have h1 : t.rows.find? (fun r => r.1 == t.nextId) = none := by
        rw [List.find?_eq_none]
        intro r hr
        have := hlt r hr
        simp only [beq_iff_eq]
        omega
      rw [h1]
      simp

/-- Sort a list by a numeric key, largest first (`ORDER BY ... DESC` /
`.sort(..., -1)`): insertion of one element. -/
def insertDescBy {α : Type} (f : α → Nat) (x : α) : List α → List α
  | [] => [x]
  | y :: ys => if f y ≤ f x then x :: y :: ys else y :: insertDescBy f x ys

/-- Sort a list by a numeric key, largest first. -/
def sortDescBy {α : Type} (f : α → Nat) : List α → List α
  | [] => []
  | x :: xs => insertDescBy f x (sortDescBy f xs)

theorem sortDescBy_append_max {α : Type} (f : α → Nat) (x : α) (l : List α)
    (h : ∀ y ∈ l, f y < f x) :
    sortDescBy f (l ++ [x]) = x :: sortDescBy f l := by
  induction l with
  | nil => rfl
  | cons y ys ih =>
      have hy : f y < f x := h y (by simp)
      have hys : ∀ z ∈ ys, f z < f x := fun z hz => h z (by simp [hz])
      show insertDescBy f y (sortDescBy f (ys ++ [x])) = x :: sortDescBy f (y :: ys)
      rw [ih hys]
      show insertDescBy f y (x :: sortDescBy f ys) = x :: sortDescBy f (y :: ys)
      unfold insertDescBy
      rw [if_neg (by omega)]
      rfl

/-- Replace the first element satisfying the predicate
(`find_one_and_update` applies `$set` to one matching document). -/
def replaceFirst {α : Type} (p : α → Bool) (x : α) : List α → List α
  | [] => []
  | y :: ys => if p y then x :: ys else y :: replaceFirst p x ys

/-- Remove the first element satisfying the predicate, reporting whether one
was removed (`delete_one` and its `deleted_count`). -/
def removeFirst {α : Type} (p : α → Bool) : List α → Bool × List α
  | [] => (false, [])
  | y :: ys =>
      if p y then (true, ys)
      else
        let r := removeFirst p ys
        (r.1, y :: r.2)

theorem removeFirst_fst {α : Type} (p : α → Bool) (l : List α) :
    (removeFirst p l).1 = l.any p := by
  induction l with
  | nil => rfl
  | cons y ys ih =>
      by_cases hy : p y
      · simp [removeFirst, hy]
      · simp [removeFirst, hy, ih]

theorem removeFirst_of_no_match {α : Type} (p : α → Bool) (l : List α)
    (h : ∀ x ∈ l, p x = false) : removeFirst p l = (false, l) := by
  induction l with
  | nil => rfl
  | cons y ys ih =>
      have hy : p y = false := h y (by simp)
      have hys : ∀ x ∈ ys, p x = false := fun x hx => h x (by simp [hx])
      simp [removeFirst, hy, ih hys]

theorem removeFirst_no_match_left {α : Type} (p : α → Bool) (l : List α)
    (h : (l.filter p).length ≤ 1) : ((removeFirst p l).2.filter p) = [] := by
  induction l with
  | nil => rfl
  | cons y ys ih =>
      by_cases hy : p y
      · have h2 : (List.filter p (y :: ys)).length = (List.filter p ys).length + 1 := by
          simp [List.filter_cons, hy]
        have h0 : (List.filter p ys).length = 0 := by omega
        have hnil : ys.filter p = [] := by
          rwa [← List.length_eq_zero]
        simp [removeFirst, hy, hnil]
      · have hlen : (ys.filter p).length ≤ 1 := by
          have := h
          simpa [List.filter_cons, hy] using this
        simp [removeFirst, hy, List.filter_cons, ih hlen]

theorem replaceFirst_map_eq {α β : Type} (p : α → Bool) (x a : α) (g : α → β)
    (l : List α) (hfind : l.find? p = some a) (hg : g x = g a) :
    (replaceFirst p x l).map g = l.map g := by
  induction l with
  | nil => simp at hfind
  | cons y ys ih =>
      by_cases hy : p y
      · have : a = y := by
          have := hfind
          rw [List.find?_cons_of_pos _ hy] at this
          exact (Option.some_inj.mp this).symm
        simp [replaceFirst, hy, hg, this]
      · have hfind' : ys.find? p = some a := by
          have := hfind
          rwa [List.find?_cons_of_neg _ hy] at this
        simp [replaceFirst, hy, ih hfind']

theorem map_eq_self_of_eq {α : Type} (f : α → α) (l : List α)
    (h : ∀ x ∈ l, f x = x) : l.map f = l := by
  induction l with
  | nil => rfl
  | cons y ys ih =>
      have hy : f y = y := h y (by simp)
      have hys : ∀ x ∈ ys, f x = x := fun x hx => h x (by simp [hx])
      simp [hy, ih hys]

/-- A `find?` hit in a list whose keys are distinct is the only element with
that key. -/
theorem find?_key_unique {α : Type} (f : α → Nat) (k : Nat) (a : α) (l : List α)
    (hnd : (l.map f).Nodup) (hfind : l.find? (fun r => f r == k) = some a) :
    ∀ x ∈ l, f x = k → x = a := by
  intro x hx hxk
  have ha := List.mem_of_find?_eq_some hfind
  have hak : f a = k := by simpa using List.find?_some hfind
  have hinj := List.inj_on_of_nodup_map hnd
  exact hinj hx ha (by rw [hxk, hak])

/-- With distinct keys a key-based filter keeps at most one element. -/
theorem filter_key_le_one {α : Type} (g : α → Option Nat) (l : List α)
    (hnd : (l.filterMap g).Nodup) (n : Nat) :
    (l.filter (fun x => g x == some n)).length ≤ 1 := by
  induction l with
  | nil => simp
  | cons y ys ih =>
      by_cases hy : g y = some n
      · have hmem : n ∉ ys.filterMap g := by
          have := hnd
          rw [List.filterMap_cons, hy] at this
          exact (List.nodup_cons.mp this).1
        have hnone : ∀ x ∈ ys, ¬(g x == some n) = true := by
          intro x hx hgx
          exact hmem (List.mem_filterMap.mpr ⟨x, hx, by simpa using hgx⟩)
        have hnil : ys.filter (fun x => g x == some n) = [] :=
          List.filter_eq_nil_iff.mpr hnone
        simp [List.filter_cons, hy, hnil]
      · have hnd' : (ys.filterMap g).Nodup := by
          have := hnd
          rw [List.filterMap_cons] at this
          cases hgy : g y with
          | none => rwa [hgy] at this
          | some m => rw [hgy] at this; exact (List.nodup_cons.mp this).2
        have : ¬(g y == some n) = true := by simpa using hy
        simp only [List.filter_cons, this]
        exact ih hnd'

/-- A stored row of the `readings` table (`sqlite_db.py`).  `result` and the
sensor columns are nullable; `timestamp` is the creation-time clock value. -/
structure SqlReading where
  id : Nat
  crop_id : Nat
  soil_name : Option String
  growth_stage_id : Nat
  moi : Option Val
  temp : Option Val
  humidity : Option Val
  result : Option Int
  timestamp : Nat
deriving DecidableEq

/-- The SQLite database state: the two reference tables, the readings table
with its autoincrement counter, and the clock. -/
structure SqlDB where
  crops : RefTable
  growth_stages : RefTable
  readings : List SqlReading
  nextReadingId : Nat
  now : Nat
deriving DecidableEq

/-- The payload accepted by `add_reading` (the `ReadingCreate` dict):
`moi`/`temp`/`humidity`/`soil_name`/`crop_name`/`growth_stage_name` are
required keys; `result` and `timestamp` are read with `.get` and may be
absent.  Both adapters ignore a supplied `timestamp` and stamp the current
time themselves. -/
structure CreatePayload where
  moi : Val
  temp : Val
  humidity : Val
  soil_name : String
  crop_name : String
  growth_stage_name : String
  result : PField Int
  timestamp : PField Nat
deriving DecidableEq

/-- The dict returned by `add_reading`/`update_reading`: the row columns plus
the crop / growth-stage names obtained by a `LEFT JOIN` (hence optional). -/
structure SqlOut where
  id : Nat
  crop_id : Nat
  soil_name : Option String
  growth_stage_id : Nat
  moi : Option Val
  temp : Option Val
  humidity : Option Val
  result : Option Int
  timestamp : Nat
  crop_name : Option String
  growth_stage_name : Option String
deriving DecidableEq

/-- `SELECT r.*, c.name, g.name ... LEFT JOIN` for a single row. -/
def SqlReading.enrich (r : SqlReading) (db : SqlDB) : SqlOut :=
  { id := r.id, crop_id := r.crop_id, soil_name := r.soil_name,
    growth_stage_id := r.growth_stage_id, moi := r.moi, temp := r.temp,
    humidity := r.humidity, result := r.result, timestamp := r.timestamp,
    crop_name := db.crops.findName r.crop_id,
    growth_stage_name := db.growth_stages.findName r.growth_stage_id }

/-- The inner `JOIN crops ... JOIN growth_stages` of `get_readings`: a row
joins only when both reference rows exist. -/
def SqlDB.joinRow (db : SqlDB) (r : SqlReading) : Option SqlOut :=
  match db.crops.findName r.crop_id, db.growth_stages.findName r.growth_stage_id with
  | some cn, some gn =>
      some { id := r.id, crop_id := r.crop_id, soil_name := r.soil_name,
             growth_stage_id := r.growth_stage_id, moi := r.moi, temp := r.temp,
             humidity := r.humidity, result := r.result, timestamp := r.timestamp,
             crop_name := some cn, growth_stage_name := some gn }
  | _, _ => none

/-- `get_readings(skip, limit, reading_id, crop_id)`: join, filter, order by
timestamp descending, then `LIMIT ? OFFSET ?`. -/
def SqlDB.getReadings (db : SqlDB) (skip limit : Nat)
    (reading_id : Option Nat) (crop_id : Option Nat) : List SqlOut :=
  let rows := db.readings.filter (fun r =>
    (match reading_id with | some i => r.id == i | none => true) &&
    (match crop_id with | some c => r.crop_id == c | none => true))
  let joined := rows.filterMap db.joinRow
  ((sortDescBy (fun o => o.timestamp) joined).drop skip).take limit

/-- `add_reading`: resolve or create the crop and growth stage, insert the
row with the current clock as timestamp, and return the re-selected row with
names joined on. -/
def SqlDB.addReading (db : SqlDB) (p : CreatePayload) : SqlOut × SqlDB :=
  let rc := db.crops.resolveOrCreate p.crop_name
  let rg := db.growth_stages.resolveOrCreate p.growth_stage_name
  let r : SqlReading :=
    { id := db.nextReadingId, crop_id := rc.1, soil_name := some p.soil_name,
      growth_stage_id := rg.1, moi := some p.moi, temp := some p.temp,
      humidity := some p.humidity, result := p.result.toOption,
      timestamp := db.now }
  let db' : SqlDB :=
    { crops := rc.2, growth_stages := rg.2,
      readings := db.readings ++ [r],
      nextReadingId := db.nextReadingId + 1, now := db.now + 1 }
  (r.enrich db', db')

/-- The update payload dict: any key may be absent, `None`, or set.
`timestamp`, `prediction_probability` and `prediction_timestamp` can appear
in callers' dicts but are ignored by the adapter. -/
structure UpdatePayload where
  id : PField Nat
  moi : PField Val
  temp : PField Val
  humidity : PField Val
  result : PField Int
  soil_name : PField String
  crop_name : PField String
  growth_stage_name : PField String
  timestamp : PField Nat
  prediction_probability : PField Val
  prediction_timestamp : PField Nat
deriving DecidableEq

/-- The `if 'crop_name' in reading_data and reading_data['crop_name']: ...`
block of `update_reading`: a truthy name is resolved (creating the reference
row when new); otherwise the existing identifier and table are kept. -/
def resolveField (t : RefTable) (f : PField String) (old : Nat) : Nat × RefTable :=
  match f.truthyStr with
  | some nm => t.resolveOrCreate nm
  | none => (old, t)

/-- The row values written by the `UPDATE readings SET ...` statement:
each scalar comes from `reading_data.get(k, existing[k])`; the timestamp
column is not part of the statement. -/
def SqlDB.updatedRow (db : SqlDB) (p : UpdatePayload) (ex : SqlReading) : SqlReading :=
  { id := ex.id,
    crop_id := (resolveField db.crops p.crop_name ex.crop_id).1,
    growth_stage_id := (resolveField db.growth_stages p.growth_stage_name ex.growth_stage_id).1,
    soil_name := p.soil_name.getD ex.soil_name,
    moi := p.moi.getD ex.moi,
    temp := p.temp.getD ex.temp,
    humidity := p.humidity.getD ex.humidity,
    result := p.result.getD ex.result,
    timestamp := ex.timestamp }

/-- `update_reading`: require the `id` key, fetch the existing row (raising
not-found when absent), resolve truthy names, rewrite the row, and return the
re-selected row with names joined on.  Errors carry the raised message; the
resulting state is returned alongside (exceptions do not roll anything back). -/
def SqlDB.updateReading (db : SqlDB) (p : UpdatePayload) : Except String SqlOut × SqlDB :=
  match p.id with
  | .absent => (.error ("Reading identifier id is required"), db)
  | .null => (.error ("Reading not found"), db)
  | .val rid =>
    match db.readings.find? (fun r => r.id == rid) with
    | none => (.error ("Reading not found"), db)
    | some ex =>
        let upd := db.updatedRow p ex
        let db' : SqlDB :=
          { db with
            crops := (resolveField db.crops p.crop_name ex.crop_id).2,
            growth_stages :=
              (resolveField db.growth_stages p.growth_stage_name ex.growth_stage_id).2,
            readings := db.readings.map (fun r => if r.id == rid then upd else r) }
        (.ok (upd.enrich db'), db')

/-- `delete_reading`: `DELETE FROM readings WHERE id = ?`, reporting
`rowcount > 0`. -/
def SqlDB.deleteReading (db : SqlDB) (rid : Nat) : Bool × SqlDB :=
  let remaining := db.readings.filter (fun r => !(r.id == rid))
  (decide (remaining.length < db.readings.length),
   { db with readings := remaining })

/-- Well-formedness of an SQLite state: reference tables well formed, reading
ids distinct and below the autoincrement counter, timestamps in the past. -/
def SqlDB.WF (db : SqlDB) : Prop :=
  db.crops.WF ∧ db.growth_stages.WF ∧
  (db.readings.map (fun r => r.id)).Nodup ∧
  (∀ r ∈ db.readings, r.id < db.nextReadingId) ∧
  (∀ r ∈ db.readings, r.timestamp < db.now)

/-- A Python string as the Mongo layer sees it: either the `str()` rendering
of an ObjectId (the only strings `ObjectId.is_valid` accepts) or any other
raw string. -/
inductive PyStr where
  | oid : Nat → PyStr
  | raw : String → PyStr
deriving DecidableEq

/-- A Python value appearing under an identifier key of an update dict:
an int, a string, or an actual `ObjectId` object. -/
inductive PyVal where
  | vint : Nat → PyVal
  | vstr : PyStr → PyVal
  | vobj : Nat → PyVal
deriving DecidableEq

/-- Python truthiness of such a value (`0` and `""` are falsy). -/
def PyVal.truthy : PyVal → Bool
  | .vint n => n != 0
  | .vstr (.raw s) => s != ""
  | .vstr (.oid _) => true
  | .vobj _ => true

/-- `s.isdigit()`: non-empty and every character a (ASCII) digit. -/
def pyIsDigit (s : String) : Bool :=
  !(s.data.isEmpty) && s.data.all (fun c => decide ('0' ≤ c) && decide (c ≤ '9'))

/-- `int(s)` on a digit string: the base-10 value of its characters. -/
def pyStrToNat (s : String) : Nat :=
  s.data.foldl (fun acc c => acc * 10 + (c.toNat - 48)) 0

/-- `isinstance(s, str) and s.isdigit()`. -/
def PyStr.isDigit : PyStr → Bool
  | .oid _ => false
  | .raw s => pyIsDigit s

/-- A stored document of the `readings` collection (`mongodb_db.py`).
`legacy` is the integer `id` field preserved on migrated records; new
documents do not carry it. -/
structure MongoReading where
  oid : Nat
  legacy : Option Nat
  crop_id : PyStr
  growth_stage_id : PyStr
  soil_name : Option String
  moi : Option Val
  temp : Option Val
  humidity : Option Val
  result : Option Int
  timestamp : Nat
deriving DecidableEq

/-- The MongoDB state: reference collections, the readings collection with
the ObjectId generator, and the clock. -/
structure MongoState where
  crops : RefTable
  growth_stages : RefTable
  readings : List MongoReading
  nextOid : Nat
  now : Nat
deriving DecidableEq

/-- The dict produced by `convert_mongo_id` plus optional name enrichment:
document fields, `id = str(_id)`, and the names when their reference
documents were resolvable. -/
structure MongoOut where
  id : PyStr
  legacy : Option Nat
  crop_id : PyStr
  growth_stage_id : PyStr
  soil_name : Option String
  moi : Option Val
  temp : Option Val
  humidity : Option Val
  result : Option Int
  timestamp : Nat
  crop_name : Option String
  growth_stage_name : Option String
deriving DecidableEq

/-- Look a stored reference identifier up by name: only strings that are
valid ObjectIds are looked up (`ObjectId.is_valid` guard in the source). -/
def refNameOf (t : RefTable) (sid : PyStr) : Option String :=
  match sid with
  | .oid n => t.findName n
  | .raw _ => none

/-- `convert_mongo_id` plus the crop / growth-stage name enrichment used by
`get_readings` and by the return path of `update_reading`. -/
def MongoState.enrichOut (db : MongoState) (r : MongoReading) : MongoOut :=
  { id := .oid r.oid, legacy := r.legacy, crop_id := r.crop_id,
    growth_stage_id := r.growth_stage_id, soil_name := r.soil_name,
    moi := r.moi, temp := r.temp, humidity := r.humidity, result := r.result,
    timestamp := r.timestamp,
    crop_name := refNameOf db.crops r.crop_id,
    growth_stage_name := refNameOf db.growth_stages r.growth_stage_id }

/-- The identifier argument of `get_readings` / `delete_reading`:
a Python string or int. -/
inductive RId where
  | str : PyStr → RId
  | int : Nat → RId
deriving DecidableEq

/-- The query built by `get_readings` for a `reading_id`: try
`ObjectId(reading_id)` and fall back to the legacy integer `id` field,
int-converting digit strings.  A non-digit, non-ObjectId string queries
`id = <string>`, which never equals a stored integer. -/
def mongoGetFilter (rid : RId) (r : MongoReading) : Bool :=
  match rid with
  | .str (.oid n) => r.oid == n
  | .str (.raw s) =>
      if pyIsDigit s then r.legacy == some (pyStrToNat s)
      else false
  | .int n => r.legacy == some n

/-- `get_readings(skip, limit, reading_id, crop_id)`: filter, sort by
timestamp descending, paginate, then convert and enrich each document. -/
def MongoState.getReadings (db : MongoState) (skip limit : Nat)
    (reading_id : Option RId) (crop_id : Option PyStr) : List MongoOut :=
  let rows := db.readings.filter (fun r =>
    (match reading_id with | some rid => mongoGetFilter rid r | none => true) &&
    (match crop_id with | some c => r.crop_id == c | none => true))
  let page := ((sortDescBy (fun r => r.timestamp) rows).drop skip).take limit
  page.map db.enrichOut

/-- `add_reading`: resolve or create the crop and growth stage, insert the
document (no legacy id, current clock as timestamp), and return the converted
document with both names attached. -/
def MongoState.addReading (db : MongoState) (p : CreatePayload) : MongoOut × MongoState :=
  let rc := db.crops.resolveOrCreate p.crop_name
  let rg := db.growth_stages.resolveOrCreate p.growth_stage_name
  let r : MongoReading :=
    { oid := db.nextOid, legacy := none, crop_id := .oid rc.1,
      growth_stage_id := .oid rg.1, soil_name := some p.soil_name,
      moi := some p.moi, temp := some p.temp, humidity := some p.humidity,
      result := p.result.toOption, timestamp := db.now }
  let out : MongoOut :=
    { id := .oid db.nextOid, legacy := none, crop_id := .oid rc.1,
      growth_stage_id := .oid rg.1, soil_name := some p.soil_name,
      moi := some p.moi, temp := some p.temp, humidity := some p.humidity,
      result := p.result.toOption, timestamp := db.now,
      crop_name := some p.crop_name, growth_stage_name := some p.growth_stage_name }
  (out,
   { db with
     crops := rc.2, growth_stages := rg.2,
     readings := db.readings ++ [r], nextOid := db.nextOid + 1,
     now := db.now + 1 })

/-- The update payload dict of the Mongo adapter: `_id` and `id` are separate
keys; the scalar keys feed the `$set` loop; truthy names are re-resolved. -/
structure MUpdatePayload where
  mid : PField PyVal
  id : PField PyVal
  moi : PField Val
  temp : PField Val
  humidity : PField Val
  result : PField Int
  soil_name : PField String
  crop_name : PField String
  growth_stage_name : PField String
  timestamp : PField Nat
  prediction_probability : PField Val
  prediction_timestamp : PField Nat
deriving DecidableEq

/-- `reading_data.get("_id")` followed by the truthiness test. -/
def midTruthy (f : PField PyVal) : Option PyVal :=
  match f with
  | .val v => if v.truthy then some v else none
  | _ => none

/-- A Mongo filter over the readings collection built by
`update_reading` / `delete_reading`. -/
inductive MFilter where
  | byOid : Nat → MFilter
  | byLegacy : Option PyVal → MFilter
  | noMatch : MFilter
deriving DecidableEq

/-- `{"id": value}` matching: an integer matches the stored legacy integer;
`None` matches documents whose legacy field is null or missing; any other
value never equals a stored integer. -/
def legacyMatches (q : Option PyVal) (r : MongoReading) : Bool :=
  match q with
  | none => r.legacy == none
  | some (.vint n) => r.legacy == some n
  | some _ => false

def MFilter.matches : MFilter → MongoReading → Bool
  | .byOid n, r => r.oid == n
  | .byLegacy q, r => legacyMatches q r
  | .noMatch, _ => false

/-- The filter-building prelude of `update_reading`: a truthy `_id` must be a
valid ObjectId string or an `ObjectId` object (nothing else builds a filter,
raising the identifier-required error); only when `_id` is absent or falsy is
the raw `id` key used. -/
def mongoUpdateFilter (p : MUpdatePayload) : Option MFilter :=
  match midTruthy p.mid with
  | some (.vstr (.oid n)) => some (.byOid n)
  | some (.vobj n) => some (.byOid n)
  | some _ => none
  | none =>
    match p.id with
    | .absent => none
    | .null => some (.byLegacy none)
    | .val v => some (.byLegacy (some v))

/-- Whether the `$set` document is nonempty: a non-`None` scalar value or a
truthy name. -/
def MUpdatePayload.hasSet (p : MUpdatePayload) : Bool :=
  p.moi.isVal || p.temp.isVal || p.humidity.isVal || p.result.isVal ||
  p.soil_name.isVal || p.crop_name.truthyStr.isSome ||
  p.growth_stage_name.truthyStr.isSome

/-- The document after `$set`: non-`None` scalars overwrite, truthy names
replace the reference identifiers with the freshly resolved ones; `_id`,
legacy id and timestamp are untouched. -/
def MongoState.updatedDoc (db : MongoState) (p : MUpdatePayload)
    (doc : MongoReading) : MongoReading :=
  { doc with
    moi := mongoSetField p.moi doc.moi,
    temp := mongoSetField p.temp doc.temp,
    humidity := mongoSetField p.humidity doc.humidity,
    result := mongoSetField p.result doc.result,
    soil_name := mongoSetField p.soil_name doc.soil_name,
    crop_id :=
      (match p.crop_name.truthyStr with
       | some cn => .oid (db.crops.resolveOrCreate cn).1
       | none => doc.crop_id),
    growth_stage_id :=
      (match p.growth_stage_name.truthyStr with
       | some gn => .oid (db.growth_stages.resolveOrCreate gn).1
       | none => doc.growth_stage_id) }

/-- `update_reading`: build the filter (raising when empty), resolve truthy
names — inserting reference documents before the existence check — then
either return the enriched document unchanged (empty `$set`) or apply
`find_one_and_update` to the first matching document.  The state is returned
alongside even on error, since a raise does not undo prior inserts. -/
def MongoState.updateReading (db : MongoState) (p : MUpdatePayload) :
    Except String MongoOut × MongoState :=
  match mongoUpdateFilter p with
  | none => (.error ("Reading identifier is required"), db)
  | some filt =>
    let crops' :=
      match p.crop_name.truthyStr with
      | some cn => (db.crops.resolveOrCreate cn).2
      | none => db.crops
    let gss' :=
      match p.growth_stage_name.truthyStr with
      | some gn => (db.growth_stages.resolveOrCreate gn).2
      | none => db.growth_stages
    if p.hasSet then
      match db.readings.find? filt.matches with
      | none =>
          (.error ("Reading not found"),
           { db with crops := crops', growth_stages := gss' })
      | some doc =>
          let upd := db.updatedDoc p doc
          let db' : MongoState :=
            { db with
              crops := crops', growth_stages := gss',
              readings := replaceFirst filt.matches upd db.readings }
          (.ok (db'.enrichOut upd), db')
    else
      match db.readings.find? filt.matches with
      | none => (.error ("Reading not found"), db)
      | some doc => (.ok (db.enrichOut doc), db)

/-- The filter built by `delete_reading`: a valid ObjectId string matches
`_id`; an int or digit string matches the legacy integer id; any other value
is tried directly against `_id` and matches nothing. -/
def mongoDeleteFilter (rid : RId) : MFilter :=
  match rid with
  | .str (.oid n) => .byOid n
  | .int n => .byLegacy (some (.vint n))
  | .str (.raw s) =>
      if pyIsDigit s then .byLegacy (some (.vint (pyStrToNat s)))
      else .noMatch

/-- `delete_reading`: `delete_one`, reporting `deleted_count > 0`. -/
def MongoState.deleteReading (db : MongoState) (rid : RId) : Bool × MongoState :=
  let r := removeFirst (mongoDeleteFilter rid).matches db.readings
  (r.1, { db with readings := r.2 })

/-- Well-formedness of a Mongo state: reference collections well formed,
document ids distinct and below the generator, legacy ids distinct,
timestamps in the past. -/
def MongoState.WF (db : MongoState) : Prop :=
  db.crops.WF ∧ db.growth_stages.WF ∧
  (db.readings.map (fun r => r.oid)).Nodup ∧
  (db.readings.filterMap (fun r => r.legacy)).Nodup ∧
  (∀ r ∈ db.readings, r.oid < db.nextOid) ∧
  (∀ r ∈ db.readings, r.timestamp < db.now)

/-- A model output as a numpy array: either a 2-D batch of per-class score
rows or a 1-D score vector. -/
inductive NpPred where
  | twoD : List (List Val) → NpPred
  | oneD : List Val → NpPred
deriving DecidableEq

/-- `np.argmax` bookkeeping: first index attaining the maximum. -/
def argmaxFrom (i bi : Nat) (bv : Val) : List Val → Nat
  | [] => bi
  | x :: xs => if bv < x then argmaxFrom (i + 1) i x xs else argmaxFrom (i + 1) bi bv xs

/-- `np.argmax` over a vector (first index of the maximum; 0 on empty). -/
def argmaxIdx : List Val → Nat
  | [] => 0
  | x :: xs => argmaxFrom 1 0 x xs

/-- The output-shape normalization of the prediction endpoints
(`predictions.py`): a 2-D output with more than two columns is truncated to
its first two columns; a (remaining) multi-column row yields
`(argmax, first two scores)`; otherwise the single score `p` yields
`(p > 0.5, [1 - p, p])`. -/
def normalizePred : NpPred → Nat × List Val
  | .twoD rows =>
    let ncols := (rows.headD []).length
    let rows2 := if 2 < ncols then rows.map (fun r => r.take 2) else rows
    let row0 := rows2.headD []
    if 1 < row0.length then
      (argmaxIdx row0, row0.take 2)
    else
      let p := row0.headD 0
      (if (1 : Val) / 2 < p then 1 else 0, [1 - p, p])
  | .oneD vals =>
    let p := vals.headD 0
    (if (1 : Val) / 2 < p then 1 else 0, [1 - p, p])

/-- The response dict of the prediction endpoints (fields relevant to the
repository contract). -/
structure PredResponse (ρ : Type) where
  status : String
  prediction : List Val
  predicted_class : Nat
  reading : ρ
deriving DecidableEq

/-- The `try: updated = db.update_reading(...) ... except: log` block: a
successful write-back replaces the reading in the response, a raise is
swallowed and the previously fetched reading is kept. -/
def handleWriteBack {ρ : Type} (orig : ρ) (wb : Except String ρ) : ρ :=
  match wb with
  | .ok r => r
  | .error _ => orig

/-- The response assembled by the predict-latest endpoints from the fetched
reading, the normalized model output and the write-back outcome. -/
def glueResponse {ρ : Type} (latest : ρ) (modelOut : NpPred)
    (wb : Except String ρ) : PredResponse ρ :=
  { status := "success",
    prediction := (normalizePred modelOut).2,
    predicted_class := (normalizePred modelOut).1,
    reading := handleWriteBack latest wb }

/-- The `update_data` dict built by `predict_latest_sqlite` from the latest
reading and the prediction: every key is present; optional stored values
surface as `None`. -/
def writeBackPayload (r : SqlOut) (cls : Nat) (probs : List Val) (ts : Nat) :
    UpdatePayload :=
  { id := .val r.id,
    result := .val (Int.ofNat cls),
    prediction_probability :=
      .val (if 1 < probs.length then probs.getD 1 0 else probs.getD 0 0),
    prediction_timestamp := .val ts,
    crop_name := .val ((r.crop_name).getD ""),
    growth_stage_name := .val ((r.growth_stage_name).getD ""),
    moi := PField.ofOpt r.moi,
    temp := PField.ofOpt r.temp,
    humidity := PField.ofOpt r.humidity,
    soil_name := .val ((r.soil_name).getD ""),
    timestamp := .absent }

/-- `predict_latest_sqlite`: fetch the latest reading, normalize the supplied
model output, attempt the write-back through `update_reading` (failures
swallowed), and return the success response. -/
def predictLatestSqlite (db : SqlDB) (modelOut : NpPred) :
    Except String (PredResponse SqlOut × SqlDB) :=
  match db.getReadings 0 1 none none with
  | [] => .error ("No readings found in SQLite database")
  | latest :: _ =>
    let cp := normalizePred modelOut
    let wb := db.updateReading (writeBackPayload latest cp.1 cp.2 db.now)
    .ok (glueResponse latest modelOut wb.1, wb.2)

/-- Resolving a fresh name creates exactly one row; resolving it again
returns the same identifier and table. -/
theorem RefTable.resolveOrCreate_twice (t : RefTable) (name : String)
    (h : t.find name = none) :
    (t.resolveOrCreate name).2.countName name = 1 ∧
    ((t.resolveOrCreate name).2.resolveOrCreate name) =
      ((t.resolveOrCreate name).1, (t.resolveOrCreate name).2) := by
  constructor
  · rw [t.resolveOrCreate_of_new name h]
    exact t.countName_after_new name h
  · exact RefTable.resolveOrCreate_of_found _ name _ (t.find_resolveOrCreate name)

/-- C1: for a reading created via `add_reading` with an unseen crop
(growth-stage) name, a reference row/document with that name exists
afterwards and the created reading references its identifier; creating a
second reading with the same crop name resolves to the existing identifier
and leaves exactly one reference row/document with that name — in both the
SQLite and the document-store adapter. -/
theorem claim_C1_lazy_reference_creation
    (db : SqlDB) (mdb : MongoState) (p q : CreatePayload)
    (hq : q.crop_name = p.crop_name)
    (hc : db.crops.find p.crop_name = none)
    (hg : db.growth_stages.find p.growth_stage_name = none)
    (hmc : mdb.crops.find p.crop_name = none)
    (hmg : mdb.growth_stages.find p.growth_stage_name = none) :
    ((db.addReading p).2.crops.find p.crop_name = some (db.addReading p).1.crop_id ∧
     (db.addReading p).2.growth_stages.find p.growth_stage_name =
       some (db.addReading p).1.growth_stage_id ∧
     (db.addReading p).2.crops.countName p.crop_name = 1 ∧
     ((db.addReading p).2.addReading q).1.crop_id = (db.addReading p).1.crop_id ∧
     ((db.addReading p).2.addReading q).2.crops.countName p.crop_name = 1) ∧
    (∃ ci gi,
     (mdb.addReading p).1.crop_id = PyStr.oid ci ∧
     (mdb.addReading p).2.crops.find p.crop_name = some ci ∧
     (mdb.addReading p).1.growth_stage_id = PyStr.oid gi ∧
     (mdb.addReading p).2.growth_stages.find p.growth_stage_name = some gi ∧
     (mdb.addReading p).2.crops.countName p.crop_name = 1 ∧
     ((mdb.addReading p).2.addReading q).1.crop_id = PyStr.oid ci ∧
     ((mdb.addReading p).2.addReading q).2.crops.countName p.crop_name = 1) := by
  have hsc := db.crops.resolveOrCreate_twice p.crop_name hc
  have hsg := db.growth_stages.resolveOrCreate_twice p.growth_stage_name hg
  have hmc2 := mdb.crops.resolveOrCreate_twice p.crop_name hmc
  have hmg2 := mdb.growth_stages.resolveOrCreate_twice p.growth_stage_name hmg
  constructor
  · refine ⟨db.crops.find_resolveOrCreate p.crop_name,
      db.growth_stages.find_resolveOrCreate p.growth_stage_name, hsc.1, ?_, ?_⟩
    · show ((db.crops.resolveOrCreate p.crop_name).2.resolveOrCreate q.crop_name).1 =
        (db.crops.resolveOrCreate p.crop_name).1
      rw [hq, hsc.2]
    · show ((db.crops.resolveOrCreate p.crop_name).2.resolveOrCreate q.crop_name).2.countName
        p.crop_name = 1
      rw [hq, hsc.2]
      exact hsc.1
  · refine ⟨(mdb.crops.resolveOrCreate p.crop_name).1,
      (mdb.growth_stages.resolveOrCreate p.growth_stage_name).1, rfl,
      mdb.crops.find_resolveOrCreate p.crop_name, rfl,
      mdb.growth_stages.find_resolveOrCreate p.growth_stage_name, hmc2.1, ?_, ?_⟩
    · show PyStr.oid ((mdb.crops.resolveOrCreate p.crop_name).2.resolveOrCreate q.crop_name).1 =
        PyStr.oid (mdb.crops.resolveOrCreate p.crop_name).1
      rw [hq, hmc2.2]
    · show ((mdb.crops.resolveOrCreate p.crop_name).2.resolveOrCreate q.crop_name).2.countName
        p.crop_name = 1
      rw [hq, hmc2.2]
      exact hmc2.1

/-- Witness for C1 at a concrete input: empty stores, two readings with crop
name Corn. -/
theorem claim_C1_witness :
    ((SqlDB.mk ⟨[], 1⟩ ⟨[], 1⟩ [] 1 10).crops.find "Corn" = none) ∧
    (((SqlDB.mk ⟨[], 1⟩ ⟨[], 1⟩ [] 1 10).addReading
        ⟨30, 25, 60, "Loam", "Corn", "Vegetative", .absent, .absent⟩).2.crops.countName
        "Corn" = 1) := by
  have h := claim_C1_lazy_reference_creation
    (SqlDB.mk ⟨[], 1⟩ ⟨[], 1⟩ [] 1 10)
    (MongoState.mk ⟨[], 1⟩ ⟨[], 1⟩ [] 1 10)
    ⟨30, 25, 60, "Loam", "Corn", "Vegetative", .absent, .absent⟩
    ⟨31, 26, 61, "Clay", "Corn", "Seedling", .absent, .absent⟩
    (by decide) (by decide) (by decide) (by decide) (by decide)
  exact ⟨by decide, h.1.2.2.1⟩

/-- Reduction of the SQLite `update_reading` on the success path. -/
theorem SqlDB.updateReading_ok (db : SqlDB) (p : UpdatePayload) (rid : Nat)
    (ex : SqlReading)
    (hid : p.id = .val rid)
    (hfind : db.readings.find? (fun r => r.id == rid) = some ex) :
    db.updateReading p =
      (.ok ((db.updatedRow p ex).enrich
        { db with
          crops := (resolveField db.crops p.crop_name ex.crop_id).2,
          growth_stages :=
            (resolveField db.growth_stages p.growth_stage_name ex.growth_stage_id).2,
          readings :=
            db.readings.map (fun r => if r.id == rid then db.updatedRow p ex else r) }),
       { db with
         crops := (resolveField db.crops p.crop_name ex.crop_id).2,
         growth_stages :=
           (resolveField db.growth_stages p.growth_stage_name ex.growth_stage_id).2,
         readings :=
           db.readings.map (fun r => if r.id == rid then db.updatedRow p ex else r) }) := by
  simp only [SqlDB.updateReading, hid, hfind]

/-- Reduction of the Mongo `update_reading` on the nonempty-`$set`
success path. -/
theorem MongoState.updateReading_ok_mongo (db : MongoState) (p : MUpdatePayload)
    (filt : MFilter) (doc : MongoReading)
    (hf : mongoUpdateFilter p = some filt)
    (hset : p.hasSet = true)
    (hdoc : db.readings.find? filt.matches = some doc) :
    db.updateReading p =
      (.ok (({ db with
               crops :=
                 (match p.crop_name.truthyStr with
                  | some cn => (db.crops.resolveOrCreate cn).2
                  | none => db.crops),
               growth_stages :=
                 (match p.growth_stage_name.truthyStr with
                  | some gn => (db.growth_stages.resolveOrCreate gn).2
                  | none => db.growth_stages),
               readings :=
                 replaceFirst filt.matches (db.updatedDoc p doc) db.readings
             } : MongoState).enrichOut (db.updatedDoc p doc)),
       { db with
         crops :=
           (match p.crop_name.truthyStr with
            | some cn => (db.crops.resolveOrCreate cn).2
            | none => db.crops),
         growth_stages :=
           (match p.growth_stage_name.truthyStr with
            | some gn => (db.growth_stages.resolveOrCreate gn).2
            | none => db.growth_stages),
         readings :=
           replaceFirst filt.matches (db.updatedDoc p doc) db.readings }) := by
  simp only [MongoState.updateReading, hf, hset, hdoc, if_true]

/-- A concrete SQLite state for exercising `update_reading`: one reading with
`moi = 5`. -/
def sqlDbC2 : SqlDB :=
  ⟨⟨[(1, "Corn")], 2⟩, ⟨[(1, "Veg")], 2⟩,
   [⟨1, 1, some "Loam", 1, some 5, some 6, some 7, none, 0⟩], 2, 10⟩

/-- An update payload whose `moi` key is present with value `None` and whose
other update keys are absent. -/
def payloadC2 : UpdatePayload :=
  ⟨.val 1, .null, .absent, .absent, .absent, .absent, .absent, .absent,
   .absent, .absent, .absent⟩

/-- C2 counterexample: the claim says `update_reading` changes only fields
that are present **and non-empty** in the payload, but the SQLite adapter
reads scalars with `reading_data.get(k, existing[k])`, so a `moi` key that is
present with value `None` (an empty value) overwrites the stored `moi = 5`
with NULL — a present-but-empty field is changed. -/
theorem claim_C2_counterexample :
    payloadC2.moi = PField.null ∧
    sqlDbC2.readings.map (fun r => r.moi) = [some 5] ∧
    ((sqlDbC2.updateReading payloadC2).2.readings.map (fun r => r.moi) = [none]) := by
  exact ⟨by decide, by decide, by decide⟩

/-- C2 (amended): `update_reading` merges the payload onto the existing
record, and absent fields always keep their prior values; but the two
adapters treat present-but-`None` scalars differently: the SQLite adapter
applies every **present** scalar key (a `None` value overwrites with NULL),
while the document-store adapter applies only present **non-`None`** scalar
values.  In both adapters a non-empty `crop_name`/`growth_stage_name` is
re-resolved through the lookup resolver (creating the reference entity if
new) and replaces the stored reference identifier. -/
theorem claim_C2_amended
    (db : SqlDB) (p : UpdatePayload) (rid : Nat) (ex : SqlReading)
    (hid : p.id = .val rid)
    (hfind : db.readings.find? (fun r => r.id == rid) = some ex)
    (mdb : MongoState) (q : MUpdatePayload) (filt : MFilter) (doc : MongoReading)
    (hf : mongoUpdateFilter q = some filt)
    (hset : q.hasSet = true)
    (hdoc : mdb.readings.find? filt.matches = some doc) :
    (∃ out db',
      db.updateReading p = (.ok out, db') ∧
      out.moi = p.moi.getD ex.moi ∧
      out.temp = p.temp.getD ex.temp ∧
      out.humidity = p.humidity.getD ex.humidity ∧
      out.result = p.result.getD ex.result ∧
      out.soil_name = p.soil_name.getD ex.soil_name ∧
      (p.crop_name.truthyStr = none → out.crop_id = ex.crop_id ∧ db'.crops = db.crops) ∧
      (∀ cn, p.crop_name.truthyStr = some cn →
        out.crop_id = (db.crops.resolveOrCreate cn).1 ∧
        db'.crops = (db.crops.resolveOrCreate cn).2) ∧
      (p.growth_stage_name.truthyStr = none →
        out.growth_stage_id = ex.growth_stage_id ∧
        db'.growth_stages = db.growth_stages) ∧
      (∀ gn, p.growth_stage_name.truthyStr = some gn →
        out.growth_stage_id = (db.growth_stages.resolveOrCreate gn).1 ∧
        db'.growth_stages = (db.growth_stages.resolveOrCreate gn).2)) ∧
    (∃ mout mdb',
      mdb.updateReading q = (.ok mout, mdb') ∧
      mout.moi = mongoSetField q.moi doc.moi ∧
      mout.temp = mongoSetField q.temp doc.temp ∧
      mout.humidity = mongoSetField q.humidity doc.humidity ∧
      mout.result = mongoSetField q.result doc.result ∧
      mout.soil_name = mongoSetField q.soil_name doc.soil_name ∧
      (q.crop_name.truthyStr = none →
        mout.crop_id = doc.crop_id ∧ mdb'.crops = mdb.crops) ∧
      (∀ cn, q.crop_name.truthyStr = some cn →
        mout.crop_id = PyStr.oid (mdb.crops.resolveOrCreate cn).1 ∧
        mdb'.crops = (mdb.crops.resolveOrCreate cn).2) ∧
      (q.growth_stage_name.truthyStr = none →
        mout.growth_stage_id = doc.growth_stage_id ∧
        mdb'.growth_stages = mdb.growth_stages) ∧
      (∀ gn, q.growth_stage_name.truthyStr = some gn →
        mout.growth_stage_id = PyStr.oid (mdb.growth_stages.resolveOrCreate gn).1 ∧
        mdb'.growth_stages = (mdb.growth_stages.resolveOrCreate gn).2)) := by
  constructor
  · refine ⟨_, _, db.updateReading_ok p rid ex hid hfind, rfl, rfl, rfl, rfl, rfl,
      ?_, ?_, ?_, ?_⟩
    · intro h
      constructor
      · show (resolveField db.crops p.crop_name ex.crop_id).1 = ex.crop_id
        unfold resolveField
        rw [h]
      · show (resolveField db.crops p.crop_name ex.crop_id).2 = db.crops
        unfold resolveField
        rw [h]
    · intro cn h
      constructor
      · show (resolveField db.crops p.crop_name ex.crop_id).1 =
          (db.crops.resolveOrCreate cn).1
        unfold resolveField
        rw [h]
      · show (resolveField db.crops p.crop_name ex.crop_id).2 =
          (db.crops.resolveOrCreate cn).2
        unfold resolveField
        rw [h]
    · intro h
      constructor
      · show (resolveField db.growth_stages p.growth_stage_name ex.growth_stage_id).1 =
          ex.growth_stage_id
        unfold resolveField
        rw [h]
      · show (resolveField db.growth_stages p.growth_stage_name ex.growth_stage_id).2 =
          db.growth_stages
        unfold resolveField
        rw [h]
    · intro gn h
      constructor
      · show (resolveField db.growth_stages p.growth_stage_name ex.growth_stage_id).1 =
          (db.growth_stages.resolveOrCreate gn).1
        unfold resolveField
        rw [h]
      · show (resolveField db.growth_stages p.growth_stage_name ex.growth_stage_id).2 =
          (db.growth_stages.resolveOrCreate gn).2
        unfold resolveField
        rw [h]
  · refine ⟨_, _, mdb.updateReading_ok_mongo q filt doc hf hset hdoc, rfl, rfl, rfl, rfl, rfl,
      ?_, ?_, ?_, ?_⟩
    · intro h
      constructor
      · show (mdb.updatedDoc q doc).crop_id = doc.crop_id
        unfold MongoState.updatedDoc
        rw [h]
      · show (match q.crop_name.truthyStr with
          | some cn => (mdb.crops.resolveOrCreate cn).2
          | none => mdb.crops) = mdb.crops
        rw [h]
    · intro cn h
      constructor
      · show (mdb.updatedDoc q doc).crop_id = PyStr.oid (mdb.crops.resolveOrCreate cn).1
        unfold MongoState.updatedDoc
        rw [h]
      · show (match q.crop_name.truthyStr with
          | some c => (mdb.crops.resolveOrCreate c).2
          | none => mdb.crops) = (mdb.crops.resolveOrCreate cn).2
        rw [h]
    · intro h
      constructor
      · show (mdb.updatedDoc q doc).growth_stage_id = doc.growth_stage_id
        unfold MongoState.updatedDoc
        rw [h]
      · show (match q.growth_stage_name.truthyStr with
          | some gn => (mdb.growth_stages.resolveOrCreate gn).2
          | none => mdb.growth_stages) = mdb.growth_stages
        rw [h]
    · intro gn h
      constructor
      · show (mdb.updatedDoc q doc).growth_stage_id =
          PyStr.oid (mdb.growth_stages.resolveOrCreate gn).1
        unfold MongoState.updatedDoc
        rw [h]
      · show (match q.growth_stage_name.truthyStr with
          | some g => (mdb.growth_stages.resolveOrCreate g).2
          | none => mdb.growth_stages) = (mdb.growth_stages.resolveOrCreate gn).2
        rw [h]

/-- Witness for the amended C2 at concrete inputs. -/
theorem claim_C2_witness :
    (∃ out db',
      (SqlDB.mk ⟨[(1, "Corn")], 2⟩ ⟨[(1, "Veg")], 2⟩
        [⟨1, 1, some "Loam", 1, some 5, some 6, some 7, none, 0⟩] 2 10).updateReading
        ⟨.val 1, .val 9, .absent, .absent, .absent, .absent, .absent, .absent,
         .absent, .absent, .absent⟩ = (.ok out, db') ∧
      out.moi = some 9 ∧ out.temp = some 6) := by
  have h := claim_C2_amended
    (SqlDB.mk ⟨[(1, "Corn")], 2⟩ ⟨[(1, "Veg")], 2⟩
      [⟨1, 1, some "Loam", 1, some 5, some 6, some 7, none, 0⟩] 2 10)
    ⟨.val 1, .val 9, .absent, .absent, .absent, .absent, .absent, .absent,
     .absent, .absent, .absent⟩ 1
    ⟨1, 1, some "Loam", 1, some 5, some 6, some 7, none, 0⟩ rfl (by decide)
    (MongoState.mk ⟨[(1, "Corn")], 2⟩ ⟨[(1, "Veg")], 2⟩
      [⟨5, some 7, .oid 1, .oid 1, some "Loam", some 1, some 2, some 3, none, 0⟩] 6 10)
    ⟨.absent, .val (.vint 7), .val 4, .absent, .absent, .absent, .absent, .absent,
     .absent, .absent, .absent, .absent⟩
    (.byLegacy (some (.vint 7)))
    ⟨5, some 7, .oid 1, .oid 1, some "Loam", some 1, some 2, some 3, none, 0⟩
    (by decide) (by decide) (by decide)
  obtain ⟨⟨out, db', heq, hmoi, htemp, hrest⟩, hmongo⟩ := h
  refine ⟨out, db', heq, ?_, ?_⟩
  · rw [hmoi]
    rfl
  · rw [htemp]
    rfl

/-- Concrete state for the C3 scenario: one reading with
`moi = 10, temp = 35, humidity = 20`. -/
def dbC3 : SqlDB :=
  ((SqlDB.mk ⟨[], 1⟩ ⟨[], 1⟩ [] 1 10).addReading
    ⟨10, 35, 20, "Loam", "Corn", "Vegetative", .absent, .absent⟩).2

/-- The stub model output row `[0.2, 0.8]` (written as reduced fractions). -/
def stubOut : NpPred := .twoD [[mkRat 1 5, mkRat 4 5]]

/-- C3: the prediction glue keeps only the first two class scores of a
multi-class output row; a single-score binary output `p` becomes the pair
`[1 - p, p]` with predicted class `1` iff `p > 0.5`; and for the stub model
output row `[0.2, 0.8]` on the reading with `moi = 10, temp = 35,
humidity = 20` the predicted class is `1`, the probabilities are
`[0.2, 0.8]`, and the stored `result` is `1` after the write-back. -/
theorem claim_C3_prediction_normalization
    (rows : List (List Val)) (n : Nat)
    (hne : rows ≠ [])
    (hrect : ∀ row ∈ rows, row.length = n)
    (hn : 2 < n) :
    ((normalizePred (.twoD rows)).2 = (rows.headD []).take 2) ∧
    (∀ p : Val, normalizePred (.oneD [p]) =
      (if (1 : Val) / 2 < p then 1 else 0, [1 - p, p])) ∧
    ((normalizePred stubOut).1 = 1 ∧
     (normalizePred stubOut).2 = [mkRat 1 5, mkRat 4 5]) ∧
    ((predictLatestSqlite dbC3 stubOut).toOption.map
        (fun x => x.1.predicted_class) = some 1 ∧
     (predictLatestSqlite dbC3 stubOut).toOption.map
        (fun x => x.1.prediction) = some [mkRat 1 5, mkRat 4 5] ∧
     (predictLatestSqlite dbC3 stubOut).toOption.map
        (fun x => x.2.readings.map (fun r => r.result)) = some [some 1]) := by
  refine ⟨?_, ?_, ⟨by decide, by decide⟩, by decide, by decide, by decide⟩
  · cases rows with
    | nil => exact absurd rfl hne
    | cons a t =>
        have ha : a.length = n := hrect a (by simp)
        have h2 : 2 < a.length := by omega
        show (normalizePred (.twoD (a :: t))).2 = a.take 2
        unfold normalizePred
        simp only [List.headD_cons, if_pos h2, List.map_cons]
        have hlen : 1 < (a.take 2).length := by
          rw [List.length_take]
          omega
        simp only [if_pos hlen]
        simp [List.take_take]
  · intro p
    rfl

/-- Witness for C3 at a concrete multi-class output. -/
theorem claim_C3_witness :
    (normalizePred (.twoD [[mkRat 1 2, mkRat 3 10, mkRat 1 5]])).2 =
      [mkRat 1 2, mkRat 3 10] := by
  have h := claim_C3_prediction_normalization [[mkRat 1 2, mkRat 3 10, mkRat 1 5]] 3
    (by decide) (by simp) (by omega)
  have h1 := h.1
  rw [h1]
  rfl

/-- A successfully joined row keeps the reading's timestamp. -/
theorem SqlDB.joinRow_timestamp (db : SqlDB) (r : SqlReading) (o : SqlOut)
    (h : db.joinRow r = some o) : o.timestamp = r.timestamp := by
  unfold SqlDB.joinRow at h
  cases hc : db.crops.findName r.crop_id with
  | none => rw [hc] at h; exact absurd h (by simp)
  | some cn =>
      cases hg : db.growth_stages.findName r.growth_stage_id with
      | none => rw [hc, hg] at h; exact absurd h (by simp)
      | some gn =>
          rw [hc, hg] at h
          simp only [Option.some.injEq] at h
          rw [← h]

/-- When both reference names resolve, the inner join of `get_readings`
produces the same record as the `LEFT JOIN` of the single-row re-select. -/
theorem SqlDB.joinRow_eq_enrich (db : SqlDB) (r : SqlReading) (cn gn : String)
    (hc : db.crops.findName r.crop_id = some cn)
    (hg : db.growth_stages.findName r.growth_stage_id = some gn) :
    db.joinRow r = some (r.enrich db) := by
  unfold SqlDB.joinRow SqlReading.enrich
  rw [hc, hg]

/-- C4: `add_reading` stores the denormalized soil name verbatim, stores
`result` as absent when not supplied, stamps the creation time as timestamp,
assigns the generated identifier — and an immediately subsequent
`list(limit=1)` returns exactly the created reading first, in both adapters. -/
theorem claim_C4_create_defaults
    (db : SqlDB) (mdb : MongoState) (p : CreatePayload)
    (hres : p.result = .absent)
    (hW : db.WF) (hMW : mdb.WF) :
    ((db.addReading p).1.soil_name = some p.soil_name ∧
     (db.addReading p).1.result = none ∧
     (db.addReading p).1.timestamp = db.now ∧
     (db.addReading p).1.id = db.nextReadingId ∧
     (db.addReading p).2.getReadings 0 1 none none = [(db.addReading p).1]) ∧
    ((mdb.addReading p).1.soil_name = some p.soil_name ∧
     (mdb.addReading p).1.result = none ∧
     (mdb.addReading p).1.timestamp = mdb.now ∧
     (mdb.addReading p).1.id = PyStr.oid mdb.nextOid ∧
     (mdb.addReading p).2.getReadings 0 1 none none = [(mdb.addReading p).1]) := by
  obtain ⟨hWc, hWg, hWnd, hWlt, hWts⟩ := hW
  obtain ⟨hMc, hMg, hMnd, hMleg, hMlt, hMts⟩ := hMW
  constructor
  · refine ⟨rfl, ?_, rfl, rfl, ?_⟩
    · show p.result.toOption = none
      simp [hres, PField.toOption]
    · set rc := db.crops.resolveOrCreate p.crop_name with hrc
      set rg := db.growth_stages.resolveOrCreate p.growth_stage_name with hrg
      set r : SqlReading :=
        { id := db.nextReadingId, crop_id := rc.1, soil_name := some p.soil_name,
          growth_stage_id := rg.1, moi := some p.moi, temp := some p.temp,
          humidity := some p.humidity, result := p.result.toOption,
          timestamp := db.now } with hr
      set db' : SqlDB :=
        { crops := rc.2, growth_stages := rg.2,
          readings := db.readings ++ [r],
          nextReadingId := db.nextReadingId + 1, now := db.now + 1 } with hdb'
      have hstep : (db.addReading p).2 = db' := rfl
      have hout : (db.addReading p).1 = r.enrich db' := rfl
      rw [hstep, hout]
      have hcn : db'.crops.findName r.crop_id = some p.crop_name :=
        db.crops.findName_resolveOrCreate p.crop_name hWc
      have hgn : db'.growth_stages.findName r.growth_stage_id = some p.growth_stage_name :=
        db.growth_stages.findName_resolveOrCreate p.growth_stage_name hWg
      show ((sortDescBy (fun o => o.timestamp)
        ((db'.readings.filter (fun x => true && true)).filterMap db'.joinRow)).drop 0).take 1 =
        [r.enrich db']
      have hfilt : db'.readings.filter (fun x => true && true) = db'.readings := by
        simp
      rw [hfilt]
      have hjoined : db'.readings.filterMap db'.joinRow =
          db.readings.filterMap db'.joinRow ++ [r.enrich db'] := by
        show (db.readings ++ [r]).filterMap db'.joinRow =
          db.readings.filterMap db'.joinRow ++ [r.enrich db']
        rw [List.filterMap_append]
        have hsingle : List.filterMap db'.joinRow [r] = [r.enrich db'] := by
          rw [List.filterMap_cons,
            db'.joinRow_eq_enrich r p.crop_name p.growth_stage_name hcn hgn]
          rfl
        rw [hsingle]
      rw [hjoined]
      have hmax : ∀ o ∈ db.readings.filterMap db'.joinRow,
          (fun o => o.timestamp) o < (fun o => o.timestamp) (r.enrich db') := by
        intro o ho
        obtain ⟨y, hy, hjy⟩ := List.mem_filterMap.mp ho
        have := db'.joinRow_timestamp y o hjy
        have hlt := hWts y hy
        show o.timestamp < (r.enrich db').timestamp
        rw [this]
        exact hlt
      rw [sortDescBy_append_max _ _ _ hmax]
      rfl
  · refine ⟨rfl, ?_, rfl, rfl, ?_⟩
    · show p.result.toOption = none
      simp [hres, PField.toOption]
    · set rc := mdb.crops.resolveOrCreate p.crop_name with hrc
      set rg := mdb.growth_stages.resolveOrCreate p.growth_stage_name with hrg
      set r : MongoReading :=
        { oid := mdb.nextOid, legacy := none, crop_id := .oid rc.1,
          growth_stage_id := .oid rg.1, soil_name := some p.soil_name,
          moi := some p.moi, temp := some p.temp, humidity := some p.humidity,
          result := p.result.toOption, timestamp := mdb.now } with hr
      set db' : MongoState :=
        { mdb with
          crops := rc.2, growth_stages := rg.2,
          readings := mdb.readings ++ [r], nextOid := mdb.nextOid + 1,
          now := mdb.now + 1 } with hdb'
      have hstep : (mdb.addReading p).2 = db' := rfl
      rw [hstep]
      show (((sortDescBy (fun x => x.timestamp)
        (db'.readings.filter (fun x => true && true))).drop 0).take 1).map
          db'.enrichOut = [(mdb.addReading p).1]
      have hfilt : db'.readings.filter (fun x => true && true) =
          mdb.readings ++ [r] := by
        show (mdb.readings ++ [r]).filter (fun x => true && true) = mdb.readings ++ [r]
        simp
      rw [hfilt]
      have hmax : ∀ y ∈ mdb.readings,
          (fun x => x.timestamp) y < (fun x => x.timestamp) r := by
        intro y hy
        exact hMts y hy
      rw [sortDescBy_append_max _ _ _ hmax]
      have hcn : rc.2.findName rc.1 = some p.crop_name :=
        mdb.crops.findName_resolveOrCreate p.crop_name hMc
      have hgn : rg.2.findName rg.1 = some p.growth_stage_name :=
        mdb.growth_stages.findName_resolveOrCreate p.growth_stage_name hMg
      have e1 : refNameOf db'.crops r.crop_id = some p.crop_name := by
        show rc.2.findName rc.1 = some p.crop_name
        exact hcn
      have e2 : refNameOf db'.growth_stages r.growth_stage_id = some p.growth_stage_name := by
        show rg.2.findName rg.1 = some p.growth_stage_name
        exact hgn
      show [db'.enrichOut r] = [(mdb.addReading p).1]
      unfold MongoState.enrichOut
      rw [e1, e2]
      rfl

/-- Witness for C4: the concrete scenario payload
`{moi: 30, temp: 25, humidity: 60, crop Corn, soil Loam, stage Vegetative}`
on empty stores. -/
theorem claim_C4_witness :
    (((SqlDB.mk ⟨[], 1⟩ ⟨[], 1⟩ [] 1 10).addReading
        ⟨30, 25, 60, "Loam", "Corn", "Vegetative", .absent, .absent⟩).1.result = none) ∧
    (((SqlDB.mk ⟨[], 1⟩ ⟨[], 1⟩ [] 1 10).addReading
        ⟨30, 25, 60, "Loam", "Corn", "Vegetative", .absent, .absent⟩).2.getReadings
        0 1 none none =
      [((SqlDB.mk ⟨[], 1⟩ ⟨[], 1⟩ [] 1 10).addReading
        ⟨30, 25, 60, "Loam", "Corn", "Vegetative", .absent, .absent⟩).1]) := by
  have h := claim_C4_create_defaults (SqlDB.mk ⟨[], 1⟩ ⟨[], 1⟩ [] 1 10)
    (MongoState.mk ⟨[], 1⟩ ⟨[], 1⟩ [] 1 10)
    ⟨30, 25, 60, "Loam", "Corn", "Vegetative", .absent, .absent⟩
    rfl
    ⟨⟨by decide, by decide⟩, ⟨by decide, by decide⟩, by decide, by decide, by decide⟩
    ⟨⟨by decide, by decide⟩, ⟨by decide, by decide⟩, by decide, by decide, by decide,
      by decide⟩
  exact ⟨h.1.2.1, h.1.2.2.2.2⟩

/-- C5 counterexample: updating a non-existent reading through the
document-store adapter with a payload that carries a new crop name raises the
not-found error only after inserting the crop reference document, so the
stored state is not unchanged. -/
theorem claim_C5_counterexample :
    ((MongoState.mk ⟨[], 1⟩ ⟨[], 1⟩ [] 1 10).updateReading
      ⟨.absent, .val (.vint 1), .val 1, .absent, .absent, .absent, .absent,
       .val "Corn", .absent, .absent, .absent, .absent⟩).1 =
      .error ("Reading not found") ∧
    ((MongoState.mk ⟨[], 1⟩ ⟨[], 1⟩ [] 1 10).crops.rows = []) ∧
    ((MongoState.mk ⟨[], 1⟩ ⟨[], 1⟩ [] 1 10).updateReading
      ⟨.absent, .val (.vint 1), .val 1, .absent, .absent, .absent, .absent,
       .val "Corn", .absent, .absent, .absent, .absent⟩).2.crops.rows =
      [(1, "Corn")] := by
  exact ⟨rfl, rfl, rfl⟩

/-- C5 (amended): `update_reading` on an identifier with no matching reading
fails with the not-found error in both adapters; the SQLite adapter leaves
the state completely unchanged, and the document-store adapter leaves the
readings collection unchanged (though it may already have inserted reference
documents for newly supplied names). -/
theorem claim_C5_amended
    (db : SqlDB) (p : UpdatePayload) (rid : Nat)
    (hid : p.id = .val rid)
    (hno : db.readings.find? (fun r => r.id == rid) = none)
    (mdb : MongoState) (q : MUpdatePayload) (filt : MFilter)
    (hf : mongoUpdateFilter q = some filt)
    (hmno : mdb.readings.find? filt.matches = none) :
    db.updateReading p = (.error ("Reading not found"), db) ∧
    (mdb.updateReading q).1 = .error ("Reading not found") ∧
    (mdb.updateReading q).2.readings = mdb.readings := by
  constructor
  · simp only [SqlDB.updateReading, hid, hno]
  · unfold MongoState.updateReading
    rw [hf]
    by_cases hset : q.hasSet = true
    · simp only [hset, if_true, hmno]
      exact ⟨trivial, trivial⟩
    · simp only [Bool.not_eq_true] at hset
      simp only [hset, Bool.false_eq_true, if_false, hmno]
      exact ⟨trivial, trivial⟩

/-- Witness for the amended C5 at concrete inputs. -/
theorem claim_C5_witness :
    (SqlDB.mk ⟨[], 1⟩ ⟨[], 1⟩ [] 1 10).updateReading
      ⟨.val 1, .absent, .absent, .absent, .absent, .absent, .absent, .absent,
       .absent, .absent, .absent⟩ =
      (.error ("Reading not found"), SqlDB.mk ⟨[], 1⟩ ⟨[], 1⟩ [] 1 10) := by
  have h := claim_C5_amended (SqlDB.mk ⟨[], 1⟩ ⟨[], 1⟩ [] 1 10)
    ⟨.val 1, .absent, .absent, .absent, .absent, .absent, .absent, .absent,
     .absent, .absent, .absent⟩ 1 rfl rfl
    (MongoState.mk ⟨[], 1⟩ ⟨[], 1⟩ [] 1 10)
    ⟨.absent, .val (.vint 1), .val 1, .absent, .absent, .absent, .absent,
     .absent, .absent, .absent, .absent, .absent⟩
    (.byLegacy (some (.vint 1))) rfl rfl
  exact h.1

/-- `DELETE ... WHERE` removes something iff a row matched. -/
theorem filter_length_lt_iff {α : Type} (p : α → Bool) (l : List α) :
    (l.filter p).length < l.length ↔ ∃ x ∈ l, p x = false := by
  induction l with
  | nil => simp
  | cons y ys ih =>
      by_cases hy : p y = true
      · simp only [List.filter_cons, hy, if_true, List.length_cons,
          Nat.succ_lt_succ_iff, ih]
        constructor
        · rintro ⟨x, hx, hpx⟩
          exact ⟨x, by simp [hx], hpx⟩
        · rintro ⟨x, hx, hpx⟩
          rcases List.mem_cons.mp hx with h | h
          · rw [h] at hpx; rw [hy] at hpx; cases hpx
          · exact ⟨x, h, hpx⟩
      · have hle := List.length_filter_le p ys
        have hy' : p y = false := by
          cases h : p y
          · rfl
          · exact absurd h hy
        constructor
        · intro _
          exact ⟨y, by simp, hy'⟩
        · intro _
          simp only [List.filter_cons, hy', Bool.false_eq_true, if_false,
            List.length_cons]
          omega

/-- With distinct keys a key-based filter keeps at most one element
(map version of `filter_key_le_one`). -/
theorem filter_map_key_le_one {α : Type} (f : α → Nat) (l : List α)
    (hnd : (l.map f).Nodup) (n : Nat) :
    (l.filter (fun x => f x == n)).length ≤ 1 := by
  induction l with
  | nil => simp
  | cons y ys ih =>
      rw [List.map_cons, List.nodup_cons] at hnd
      by_cases hy : f y = n
      · have hnone : ∀ x ∈ ys, ¬(f x == n) = true := by
          intro x hx hfx
          have : f x = n := by simpa using hfx
          exact hnd.1 (by rw [← hy] at this; exact this ▸ List.mem_map_of_mem f hx)
        have hnil : ys.filter (fun x => f x == n) = [] :=
          List.filter_eq_nil_iff.mpr hnone
        simp [List.filter_cons, hy, hnil]
      · have : ¬(f y == n) = true := by simpa using hy
        simp only [List.filter_cons, this, Bool.false_eq_true, if_false]
        exact ih hnd.2

/-- `get_readings` with a reading-id filter returns nothing when no stored
row matches (SQLite). -/
theorem SqlDB.getReadings_some_id_nil (db : SqlDB) (skip lim i : Nat)
    (h : db.readings.filter (fun r => (r.id == i) && true) = []) :
    db.getReadings skip lim (some i) none = [] := by
  show (((sortDescBy (fun o => o.timestamp)
    ((db.readings.filter (fun r => (r.id == i) && true)).filterMap db.joinRow)).drop
      skip).take lim) = []
  rw [h]
  simp [sortDescBy]

/-- `get_readings` with a reading-id filter returns nothing when no stored
document matches (MongoDB). -/
theorem MongoState.getReadings_some_rid_nil (mdb : MongoState) (skip lim : Nat)
    (rid : RId)
    (h : mdb.readings.filter (fun r => mongoGetFilter rid r && true) = []) :
    mdb.getReadings skip lim (some rid) none = [] := by
  show ((((sortDescBy (fun r => r.timestamp)
    (mdb.readings.filter (fun r => mongoGetFilter rid r && true))).drop skip).take
      lim).map mdb.enrichOut) = []
  rw [h]
  simp [sortDescBy]

/-- The reading-id query of `get_readings` and the filter of `delete_reading`
match exactly the same documents. -/
theorem mongoGetFilter_eq_deleteFilter (rid : RId) (r : MongoReading) :
    mongoGetFilter rid r = (mongoDeleteFilter rid).matches r := by
  cases rid with
  | int n => rfl
  | str s =>
      cases s with
      | oid n => rfl
      | raw s =>
          simp only [mongoGetFilter, mongoDeleteFilter]
          by_cases h : pyIsDigit s = true
          · rw [if_pos h, if_pos h]
            rfl
          · rw [if_neg h, if_neg h]
            rfl

/-- Under the state invariant the delete filter matches at most one stored
document. -/
theorem mongoDeleteFilter_le_one (mdb : MongoState) (rid : RId)
    (hnd : (mdb.readings.map (fun r => r.oid)).Nodup)
    (hleg : (mdb.readings.filterMap (fun r => r.legacy)).Nodup) :
    (mdb.readings.filter ((mongoDeleteFilter rid).matches)).length ≤ 1 := by
  cases rid with
  | int n =>
      exact filter_key_le_one (fun r => r.legacy) mdb.readings hleg n
  | str s =>
      cases s with
      | oid n =>
          exact filter_map_key_le_one (fun r => r.oid) mdb.readings hnd n
      | raw s =>
          simp only [mongoDeleteFilter]
          by_cases h : pyIsDigit s = true
          · rw [if_pos h]
            exact filter_key_le_one (fun r => r.legacy) mdb.readings hleg _
          · rw [if_neg h]
            have : mdb.readings.filter MFilter.noMatch.matches = [] := by
              apply List.filter_eq_nil_iff.mpr
              intro x hx
              simp [MFilter.matches]
            rw [this]
            simp

/-- C6: `delete_reading` returns true iff a record was removed; on a
non-matching identifier it returns false and leaves the state unchanged; and
after a delete no stored record (hence no `list`/`get` result) matches the
identifier — in both adapters. -/
theorem claim_C6_delete_reports_removal
    (db : SqlDB) (rid : Nat) (skip lim : Nat)
    (mdb : MongoState) (mrid : RId)
    (hnd : (mdb.readings.map (fun r => r.oid)).Nodup)
    (hleg : (mdb.readings.filterMap (fun r => r.legacy)).Nodup) :
    ((db.deleteReading rid).1 = true ↔ ∃ r ∈ db.readings, r.id = rid) ∧
    ((db.deleteReading rid).1 = false → (db.deleteReading rid).2 = db) ∧
    ((db.deleteReading rid).2.readings.filter (fun r => r.id == rid) = []) ∧
    ((db.deleteReading rid).2.getReadings skip lim (some rid) none = []) ∧
    ((mdb.deleteReading mrid).1 = true ↔
      ∃ r ∈ mdb.readings, (mongoDeleteFilter mrid).matches r = true) ∧
    ((mdb.deleteReading mrid).1 = false → (mdb.deleteReading mrid).2 = mdb) ∧
    ((mdb.deleteReading mrid).2.readings.filter
      ((mongoDeleteFilter mrid).matches) = []) ∧
    ((mdb.deleteReading mrid).2.getReadings skip lim (some mrid) none = []) := by
  have hpost : (db.deleteReading rid).2.readings.filter (fun r => r.id == rid) = [] := by
    apply List.filter_eq_nil_iff.mpr
    intro x hx
    have hmem := List.mem_filter.mp hx
    have := hmem.2
    simp only [Bool.not_eq_true'] at this
    simp [this]
  have hmpost : (mdb.deleteReading mrid).2.readings.filter
      ((mongoDeleteFilter mrid).matches) = [] := by
    have hle := mongoDeleteFilter_le_one mdb mrid hnd hleg
    exact removeFirst_no_match_left _ _ hle
  refine ⟨?_, ?_, hpost, ?_, ?_, ?_, hmpost, ?_⟩
  · show decide ((db.readings.filter (fun r => !(r.id == rid))).length <
      db.readings.length) = true ↔ _
    rw [decide_eq_true_iff, filter_length_lt_iff]
    constructor
    · rintro ⟨x, hx, hpx⟩
      refine ⟨x, hx, ?_⟩
      simpa using hpx
    · rintro ⟨x, hx, hpx⟩
      refine ⟨x, hx, ?_⟩
      simpa using hpx
  · intro hf
    have hnp : ¬ ((db.readings.filter (fun r => !(r.id == rid))).length <
        db.readings.length) := of_decide_eq_false hf
    rw [filter_length_lt_iff] at hnp
    push_neg at hnp
    have hall : ∀ x ∈ db.readings, (fun (r : SqlReading) => !(r.id == rid)) x = true := by
      intro x hx
      have hne := hnp x hx
      cases h : (!(x.id == rid)) with
      | false => exact absurd h hne
      | true => exact h
    have hfe : db.readings.filter (fun r => !(r.id == rid)) = db.readings :=
      List.filter_eq_self.mpr hall
    show ({ db with readings := db.readings.filter (fun r => !(r.id == rid)) } : SqlDB) = db
    rw [hfe]
  · apply (db.deleteReading rid).2.getReadings_some_id_nil skip lim rid
    apply List.filter_eq_nil_iff.mpr
    intro x hx
    have : ¬(x.id == rid) = true := by
      intro hbeq
      have hx2 : x ∈ (db.deleteReading rid).2.readings.filter (fun r => r.id == rid) :=
        List.mem_filter.mpr ⟨hx, hbeq⟩
      rw [hpost] at hx2
      cases hx2
    simp [this]
  · show (removeFirst (mongoDeleteFilter mrid).matches mdb.readings).1 = true ↔ _
    rw [removeFirst_fst, List.any_eq_true]
  · intro hf
    have hany : mdb.readings.any (mongoDeleteFilter mrid).matches = false := by
      rw [← removeFirst_fst]
      exact hf
    have hnone : ∀ x ∈ mdb.readings, (mongoDeleteFilter mrid).matches x = false := by
      intro x hx
      cases h : (mongoDeleteFilter mrid).matches x with
      | false => rfl
      | true =>
          have : mdb.readings.any (mongoDeleteFilter mrid).matches = true :=
            List.any_eq_true.mpr ⟨x, hx, h⟩
          rw [this] at hany
          cases hany
    have := removeFirst_of_no_match (mongoDeleteFilter mrid).matches mdb.readings hnone
    show ({ mdb with
      readings := (removeFirst (mongoDeleteFilter mrid).matches mdb.readings).2 } :
        MongoState) = mdb
    rw [this]
  · apply (mdb.deleteReading mrid).2.getReadings_some_rid_nil skip lim mrid
    apply List.filter_eq_nil_iff.mpr
    intro x hx
    have hxm : ¬ (mongoDeleteFilter mrid).matches x = true := by
      intro hbeq
      have hx2 : x ∈ (mdb.deleteReading mrid).2.readings.filter
          ((mongoDeleteFilter mrid).matches) := List.mem_filter.mpr ⟨hx, hbeq⟩
      rw [hmpost] at hx2
      cases hx2
    rw [mongoGetFilter_eq_deleteFilter]
    simp [hxm]

/-- Witness for C6 at concrete inputs. -/
theorem claim_C6_witness :
    (((SqlDB.mk ⟨[(1, "Corn")], 2⟩ ⟨[(1, "Veg")], 2⟩
        [⟨1, 1, some "Loam", 1, some 5, some 6, some 7, none, 0⟩] 2 10).deleteReading
        1).1 = true) ∧
    (((SqlDB.mk ⟨[(1, "Corn")], 2⟩ ⟨[(1, "Veg")], 2⟩
        [⟨1, 1, some "Loam", 1, some 5, some 6, some 7, none, 0⟩] 2 10).deleteReading
        1).2.getReadings 0 5 (some 1) none = []) := by
  have h := claim_C6_delete_reports_removal
    (SqlDB.mk ⟨[(1, "Corn")], 2⟩ ⟨[(1, "Veg")], 2⟩
      [⟨1, 1, some "Loam", 1, some 5, some 6, some 7, none, 0⟩] 2 10) 1 0 5
    (MongoState.mk ⟨[], 1⟩ ⟨[], 1⟩ [] 1 10) (.int 3) (by decide) (by decide)
  refine ⟨h.1.mpr ⟨⟨1, 1, some "Loam", 1, some 5, some 6, some 7, none, 0⟩, ?_, rfl⟩,
    h.2.2.2.1⟩
  decide

/-- C7: `update_reading` given an identifier but no recognized update fields
returns the stored record (enriched with its crop and growth-stage names)
without error, and leaves the stored readings and the reference entities
completely unchanged — in both adapters. -/
theorem claim_C7_noop_update
    (db : SqlDB) (p : UpdatePayload) (rid : Nat) (ex : SqlReading)
    (hnd : (db.readings.map (fun r => r.id)).Nodup)
    (hid : p.id = .val rid)
    (hfind : db.readings.find? (fun r => r.id == rid) = some ex)
    (hmoi : p.moi = .absent) (htemp : p.temp = .absent)
    (hhum : p.humidity = .absent) (hres : p.result = .absent)
    (hsoil : p.soil_name = .absent) (hcrop : p.crop_name = .absent)
    (hgs : p.growth_stage_name = .absent)
    (mdb : MongoState) (q : MUpdatePayload) (filt : MFilter) (doc : MongoReading)
    (hf : mongoUpdateFilter q = some filt)
    (hset : q.hasSet = false)
    (hdoc : mdb.readings.find? filt.matches = some doc) :
    db.updateReading p = (.ok (ex.enrich db), db) ∧
    mdb.updateReading q = (.ok (mdb.enrichOut doc), mdb) := by
  constructor
  · have hupd : db.updatedRow p ex = ex := by
      unfold SqlDB.updatedRow resolveField
      rw [hcrop, hgs, hmoi, htemp, hhum, hres, hsoil]
      rfl
    have e1 : resolveField db.crops p.crop_name ex.crop_id = (ex.crop_id, db.crops) := by
      unfold resolveField
      rw [hcrop]
      rfl
    have e2 : resolveField db.growth_stages p.growth_stage_name ex.growth_stage_id =
        (ex.growth_stage_id, db.growth_stages) := by
      unfold resolveField
      rw [hgs]
      rfl
    have hstate : (db.readings.map (fun r => if r.id == rid then ex else r)) =
        db.readings := by
      apply map_eq_self_of_eq
      intro x hx
      by_cases hxid : (x.id == rid) = true
      · have hxeq : x = ex :=
          find?_key_unique (fun r => r.id) rid ex db.readings hnd hfind x hx
            (by simpa using hxid)
        rw [if_pos hxid, hxeq]
      · rw [if_neg hxid]
    rw [db.updateReading_ok p rid ex hid hfind, e1, e2, hupd, hstate]
  · unfold MongoState.updateReading
    rw [hf]
    simp only [hset, Bool.false_eq_true, if_false, hdoc]

/-- Witness for C7 at concrete inputs. -/
theorem claim_C7_witness :
    (SqlDB.mk ⟨[(1, "Corn")], 2⟩ ⟨[(1, "Veg")], 2⟩
      [⟨1, 1, some "Loam", 1, some 5, some 6, some 7, none, 0⟩] 2 10).updateReading
      ⟨.val 1, .absent, .absent, .absent, .absent, .absent, .absent, .absent,
       .absent, .absent, .absent⟩ =
      (.ok ((⟨1, 1, some "Loam", 1, some 5, some 6, some 7, none, 0⟩ :
          SqlReading).enrich
        (SqlDB.mk ⟨[(1, "Corn")], 2⟩ ⟨[(1, "Veg")], 2⟩
          [⟨1, 1, some "Loam", 1, some 5, some 6, some 7, none, 0⟩] 2 10)),
       SqlDB.mk ⟨[(1, "Corn")], 2⟩ ⟨[(1, "Veg")], 2⟩
         [⟨1, 1, some "Loam", 1, some 5, some 6, some 7, none, 0⟩] 2 10) := by
  have h := claim_C7_noop_update
    (SqlDB.mk ⟨[(1, "Corn")], 2⟩ ⟨[(1, "Veg")], 2⟩
      [⟨1, 1, some "Loam", 1, some 5, some 6, some 7, none, 0⟩] 2 10)
    ⟨.val 1, .absent, .absent, .absent, .absent, .absent, .absent, .absent,
     .absent, .absent, .absent⟩ 1
    ⟨1, 1, some "Loam", 1, some 5, some 6, some 7, none, 0⟩
    (by decide) rfl (by decide) rfl rfl rfl rfl rfl rfl rfl
    (MongoState.mk ⟨[(1, "Corn")], 2⟩ ⟨[(1, "Veg")], 2⟩
      [⟨5, some 7, .oid 1, .oid 1, some "Loam", some 1, some 2, some 3, none, 0⟩] 6 10)
    ⟨.absent, .val (.vint 7), .absent, .absent, .absent, .absent, .absent, .absent,
     .absent, .absent, .absent, .absent⟩
    (.byLegacy (some (.vint 7)))
    ⟨5, some 7, .oid 1, .oid 1, some "Loam", some 1, some 2, some 3, none, 0⟩
    (by decide) rfl (by decide)
  exact h.1

/-- C8: a failing write-back never fails the prediction call: when the
repository update raises, the endpoint still returns the success response
carrying the computed class and probabilities (with the originally fetched
reading); and whenever a latest reading exists the sqlite endpoint returns
`ok` regardless of the write-back outcome. -/
theorem claim_C8_writeback_failure_swallowed :
    (∀ (latest : SqlOut) (modelOut : NpPred) (err : String),
      glueResponse latest modelOut (.error err) =
        { status := "success", prediction := (normalizePred modelOut).2,
          predicted_class := (normalizePred modelOut).1, reading := latest }) ∧
    (∀ (latest : MongoOut) (modelOut : NpPred) (err : String),
      glueResponse latest modelOut (.error err) =
        { status := "success", prediction := (normalizePred modelOut).2,
          predicted_class := (normalizePred modelOut).1, reading := latest }) ∧
    (∀ (db : SqlDB) (modelOut : NpPred) (latest : SqlOut) (rest : List SqlOut),
      db.getReadings 0 1 none none = latest :: rest →
      predictLatestSqlite db modelOut =
        .ok (glueResponse latest modelOut
              (db.updateReading (writeBackPayload latest (normalizePred modelOut).1
                (normalizePred modelOut).2 db.now)).1,
             (db.updateReading (writeBackPayload latest (normalizePred modelOut).1
                (normalizePred modelOut).2 db.now)).2)) := by
  refine ⟨fun latest modelOut err => rfl, fun latest modelOut err => rfl, ?_⟩
  intro db modelOut latest rest h
  unfold predictLatestSqlite
  rw [h]

/-- The enriched latest reading of `dbC3`. -/
def outC8 : SqlOut :=
  ⟨1, 1, some "Loam", 1, some 10, some 35, some 20, none, 10, some "Corn",
   some "Vegetative"⟩

/-- Witness for C8 at concrete inputs. -/
theorem claim_C8_witness :
    dbC3.getReadings 0 1 none none = outC8 :: [] ∧
    predictLatestSqlite dbC3 (.twoD [[mkRat 1 5, mkRat 4 5]]) =
      .ok (glueResponse outC8 (.twoD [[mkRat 1 5, mkRat 4 5]])
            (dbC3.updateReading (writeBackPayload outC8
              (normalizePred (.twoD [[mkRat 1 5, mkRat 4 5]])).1
              (normalizePred (.twoD [[mkRat 1 5, mkRat 4 5]])).2 dbC3.now)).1,
           (dbC3.updateReading (writeBackPayload outC8
              (normalizePred (.twoD [[mkRat 1 5, mkRat 4 5]])).1
              (normalizePred (.twoD [[mkRat 1 5, mkRat 4 5]])).2 dbC3.now)).2) := by
  have hlist : dbC3.getReadings 0 1 none none = outC8 :: [] := by decide
  exact ⟨hlist,
    claim_C8_writeback_failure_swallowed.2.2 dbC3 (.twoD [[mkRat 1 5, mkRat 4 5]])
      outC8 [] hlist⟩

/-- C9 counterexample: the document-store adapter does not try the legacy
strategy for a digit-string identifier in `update_reading`: with a stored
migrated record of legacy id 7, `get_readings` and `delete_reading` match
the identifier string 7, but `update_reading` with that string under `_id`
raises the identifier-required error instead of matching the record. -/
theorem claim_C9_counterexample :
    ((MongoState.mk ⟨[(1, "Corn")], 2⟩ ⟨[(1, "Veg")], 2⟩
        [⟨5, some 7, .oid 1, .oid 1, some "Loam", some 1, some 2, some 3, none, 0⟩]
        6 10).readings.map (fun r => r.legacy) = [some 7]) ∧
    (((MongoState.mk ⟨[(1, "Corn")], 2⟩ ⟨[(1, "Veg")], 2⟩
        [⟨5, some 7, .oid 1, .oid 1, some "Loam", some 1, some 2, some 3, none, 0⟩]
        6 10).updateReading
      ⟨.val (.vstr (.raw "7")), .absent, .val 1, .absent, .absent, .absent, .absent,
       .absent, .absent, .absent, .absent, .absent⟩).1 =
      .error ("Reading identifier is required")) ∧
    (((MongoState.mk ⟨[(1, "Corn")], 2⟩ ⟨[(1, "Veg")], 2⟩
        [⟨5, some 7, .oid 1, .oid 1, some "Loam", some 1, some 2, some 3, none, 0⟩]
        6 10).getReadings 0 10 (some (.str (.raw "7"))) none).map
      (fun o => o.legacy) = [some 7]) ∧
    (((MongoState.mk ⟨[(1, "Corn")], 2⟩ ⟨[(1, "Veg")], 2⟩
        [⟨5, some 7, .oid 1, .oid 1, some "Loam", some 1, some 2, some 3, none, 0⟩]
        6 10).deleteReading (.str (.raw "7"))).1 = true) := by
  exact ⟨rfl, rfl, by decide, by decide⟩

/-- C9 (amended): `get_readings` and `delete_reading` accept both identifier
kinds — a valid ObjectId string matches on `_id`, and an integer or
digit-string identifier matches on the legacy integer id; `update_reading`
matches `_id` only for a valid ObjectId string or `ObjectId` object, raises a
validation error for any other non-falsy `_id` (digit strings included), and
matches the legacy id only by the exact value supplied under the `id` key
(a string value never equals a stored legacy integer). -/
theorem claim_C9_amended :
    (∀ (n : Nat) (r : MongoReading),
      mongoGetFilter (.str (.oid n)) r = (r.oid == n)) ∧
    (∀ (n : Nat) (r : MongoReading),
      mongoGetFilter (.int n) r = (r.legacy == some n)) ∧
    (∀ (s : String) (r : MongoReading), pyIsDigit s = true →
      mongoGetFilter (.str (.raw s)) r = (r.legacy == some (pyStrToNat s))) ∧
    (∀ (n : Nat) (r : MongoReading),
      (mongoDeleteFilter (.str (.oid n))).matches r = (r.oid == n)) ∧
    (∀ (n : Nat) (r : MongoReading),
      (mongoDeleteFilter (.int n)).matches r = (r.legacy == some n)) ∧
    (∀ (s : String) (r : MongoReading), pyIsDigit s = true →
      (mongoDeleteFilter (.str (.raw s))).matches r =
        (r.legacy == some (pyStrToNat s))) ∧
    (∀ (q : MUpdatePayload) (n : Nat), q.mid = .val (.vstr (.oid n)) →
      mongoUpdateFilter q = some (.byOid n)) ∧
    (∀ (q : MUpdatePayload) (n : Nat), q.mid = .val (.vobj n) →
      mongoUpdateFilter q = some (.byOid n)) ∧
    (∀ (q : MUpdatePayload) (v : PyVal), q.mid = .absent → q.id = .val v →
      mongoUpdateFilter q = some (.byLegacy (some v))) ∧
    (∀ (q : MUpdatePayload) (s : String), q.mid = .val (.vstr (.raw s)) → s ≠ "" →
      mongoUpdateFilter q = none) ∧
    (∀ (s : PyStr) (r : MongoReading), legacyMatches (some (.vstr s)) r = false) := by
  refine ⟨fun n r => rfl, fun n r => rfl, ?_, fun n r => rfl, fun n r => rfl, ?_,
    ?_, ?_, ?_, ?_, fun s r => rfl⟩
  · intro s r h
    simp only [mongoGetFilter]
    rw [if_pos h]
  · intro s r h
    simp only [mongoDeleteFilter]
    rw [if_pos h]
    rfl
  · intro q n hq
    simp [mongoUpdateFilter, midTruthy, hq, PyVal.truthy]
  · intro q n hq
    simp [mongoUpdateFilter, midTruthy, hq, PyVal.truthy]
  · intro q v hmid hid
    simp [mongoUpdateFilter, midTruthy, hmid, hid]
  · intro q s hmid hs
    have : (PyVal.vstr (.raw s)).truthy = true := by
      simp [PyVal.truthy, hs]
    simp [mongoUpdateFilter, midTruthy, hmid, this]

/-- Witness for the amended C9 at concrete inputs. -/
theorem claim_C9_witness :
    mongoGetFilter (.str (.raw "7"))
      ⟨5, some 7, .oid 1, .oid 1, some "Loam", some 1, some 2, some 3, none, 0⟩ =
      true := by
  have h := claim_C9_amended.2.2.1 "7"
    ⟨5, some 7, .oid 1, .oid 1, some "Loam", some 1, some 2, some 3, none, 0⟩
    (by decide)
  rw [h]
  decide

/-- C10: `update_reading` never changes a stored timestamp, even when the
payload carries a `timestamp` value: the SQLite `UPDATE` statement omits the
timestamp column, and the document-store `$set` loop only covers `moi`,
`temp`, `humidity`, `result`, `soil_name` plus the re-resolved reference
identifiers. -/
theorem claim_C10_update_preserves_timestamp
    (db : SqlDB) (p : UpdatePayload) (rid : Nat) (ex : SqlReading)
    (hnd : (db.readings.map (fun r => r.id)).Nodup)
    (hid : p.id = .val rid)
    (hfind : db.readings.find? (fun r => r.id == rid) = some ex)
    (mdb : MongoState) (q : MUpdatePayload) (filt : MFilter) (doc : MongoReading)
    (hf : mongoUpdateFilter q = some filt)
    (hdoc : mdb.readings.find? filt.matches = some doc) :
    ((db.updateReading p).2.readings.map (fun r => r.timestamp) =
      db.readings.map (fun r => r.timestamp)) ∧
    ((mdb.updateReading q).2.readings.map (fun r => r.timestamp) =
      mdb.readings.map (fun r => r.timestamp)) := by
  constructor
  · rw [db.updateReading_ok p rid ex hid hfind]
    show (db.readings.map (fun r => if r.id == rid then db.updatedRow p ex else r)).map
      (fun r => r.timestamp) = db.readings.map (fun r => r.timestamp)
    rw [List.map_map]
    apply List.map_congr_left
    intro x hx
    by_cases hxid : (x.id == rid) = true
    · have hxeq : x = ex :=
        find?_key_unique (fun r => r.id) rid ex db.readings hnd hfind x hx
          (by simpa using hxid)
      show (if x.id == rid then db.updatedRow p ex else x).timestamp = x.timestamp
      rw [if_pos hxid, hxeq]
      rfl
    · show (if x.id == rid then db.updatedRow p ex else x).timestamp = x.timestamp
      rw [if_neg hxid]
  · by_cases hset : q.hasSet = true
    · rw [mdb.updateReading_ok_mongo q filt doc hf hset hdoc]
      show (replaceFirst filt.matches (mdb.updatedDoc q doc) mdb.readings).map
        (fun r => r.timestamp) = mdb.readings.map (fun r => r.timestamp)
      exact replaceFirst_map_eq filt.matches (mdb.updatedDoc q doc) doc
        (fun r => r.timestamp) mdb.readings hdoc rfl
    · have hset' : q.hasSet = false := by
        cases h : q.hasSet
        · rfl
        · exact absurd h hset
      unfold MongoState.updateReading
      rw [hf]
      simp only [hset', Bool.false_eq_true, if_false, hdoc]

/-- Witness for C10 at concrete inputs, with a payload that does supply a
timestamp value. -/
theorem claim_C10_witness :
    ((SqlDB.mk ⟨[(1, "Corn")], 2⟩ ⟨[(1, "Veg")], 2⟩
        [⟨1, 1, some "Loam", 1, some 5, some 6, some 7, none, 3⟩] 2 10).updateReading
      ⟨.val 1, .val 9, .absent, .absent, .absent, .absent, .absent, .absent,
       .val 99, .absent, .absent⟩).2.readings.map (fun r => r.timestamp) = [3] := by
  have h := claim_C10_update_preserves_timestamp
    (SqlDB.mk ⟨[(1, "Corn")], 2⟩ ⟨[(1, "Veg")], 2⟩
      [⟨1, 1, some "Loam", 1, some 5, some 6, some 7, none, 3⟩] 2 10)
    ⟨.val 1, .val 9, .absent, .absent, .absent, .absent, .absent, .absent,
     .val 99, .absent, .absent⟩ 1
    ⟨1, 1, some "Loam", 1, some 5, some 6, some 7, none, 3⟩
    (by decide) rfl (by decide)
    (MongoState.mk ⟨[(1, "Corn")], 2⟩ ⟨[(1, "Veg")], 2⟩
      [⟨5, some 7, .oid 1, .oid 1, some "Loam", some 1, some 2, some 3, none, 4⟩] 6 10)
    ⟨.absent, .val (.vint 7), .val 4, .absent, .absent, .absent, .absent, .absent,
     .absent, .val 99, .absent, .absent⟩
    (.byLegacy (some (.vint 7)))
    ⟨5, some 7, .oid 1, .oid 1, some "Loam", some 1, some 2, some 3, none, 4⟩
    (by decide) (by decide)
  rw [h.1]
  decide
